import Mathlib

/-!
Verification of the SEED inter-agent network layer: vector-clock comparison,
state-conflict resolution, delivery retry logic, token authentication,
state-integrity checking, discovery health checks and network metrics.
Definitions are shallow embeddings of the Python sources under
`seed/network/` (`core.py`, `security.py`, `discovery.py`, `metrics.py`).
-/

namespace SeedNetwork

/-! ### Vector clocks (`core.py`, `_vclock_compare`)

A vector clock is a mapping from node identity to an integer counter.
We embed the Python dict as an association list; `vclockGet` is
`vclock.get(node, 0)`. -/

/-- `vclock.get(node, 0)`: the counter for `node`, missing keys read as 0. -/
def vclockGet (v : List (String × Int)) (n : String) : Int :=
  (v.lookup n).getD 0

/-- `set(vclock1) | set(vclock2)`: all node identities appearing in either
clock, without duplicates. -/
def vclockNodes (v1 v2 : List (String × Int)) : List String :=
  (v1.map Prod.fst ++ v2.map Prod.fst).dedup

/-- The loop of `_vclock_compare`: walks the node list carrying the
`v1_greater` / `v2_greater` flags, returning 0 as soon as both are set
(concurrent modifications), and otherwise deciding 1 / -1 / 0 at the end. -/
def vclockCompareGo (v1 v2 : List (String × Int)) :
    List String → Bool → Bool → Int
  | [], g1, g2 => if g1 then 1 else if g2 then -1 else 0
  | n :: rest, g1, g2 =>
      let c1 := vclockGet v1 n
      let c2 := vclockGet v2 n
      let g1 := g1 || decide (c1 > c2)
      let g2 := g2 || decide (c2 > c1)
      if g1 && g2 then 0 else vclockCompareGo v1 v2 rest g1 g2

/-- `_vclock_compare(vclock1, vclock2)`: 1 if `vclock1 > vclock2`,
-1 if `vclock1 < vclock2`, 0 if equal or concurrent. -/
def vclockCompare (v1 v2 : List (String × Int)) : Int :=
  vclockCompareGo v1 v2 (vclockNodes v1 v2) false false

/-! ### State snapshots and conflict resolution
(`core.py`, `_resolve_state_conflict`)

A state snapshot maps keys to entries; each entry carries a value (opaque
to the resolver) and its owning vector clock (`entry.get("vclock", {})`). -/

/-- One entry of a state snapshot: a value and its vector clock. -/
structure StateEntry (α : Type) where
  value : α
  vclock : List (String × Int)
deriving DecidableEq

/-- Dict lookup on a snapshot (`state[key]` / `key in state`). -/
def lookupState {α : Type} (s : List (String × StateEntry α)) (k : String) :
    Option (StateEntry α) :=
  s.lookup k

/-- The keys of a snapshot. -/
def stateKeys {α : Type} (s : List (String × StateEntry α)) : List String :=
  s.map Prod.fst

/-- The per-key body of `_resolve_state_conflict`: a key missing on one
side is taken from the other unchanged; a key present on both sides is
resolved by comparing vector clocks, the local entry winning only when its
clock is strictly greater (`_vclock_compare(...) > 0`) and the remote
entry taken otherwise. -/
def resolveEntry {α : Type} (le re : Option (StateEntry α)) :
    Option (StateEntry α) :=
  match le, re with
  | some l, none => some l
  | none, some r => some r
  | some l, some r =>
      if vclockCompare l.vclock r.vclock > 0 then some l else some r
  | none, none => none

/-- `_resolve_state_conflict(local_state, remote_state)`: iterates over
`set(local_state) | set(remote_state)` applying `resolveEntry` to each
key. -/
def resolveStateConflict {α : Type}
    (localState remoteState : List (String × StateEntry α)) :
    List (String × StateEntry α) :=
  ((stateKeys localState ++ stateKeys remoteState).dedup).filterMap fun key =>
    (resolveEntry (lookupState localState key)
      (lookupState remoteState key)).map fun e => (key, e)

/-! ### State integrity (`core.py`, `_verify_state_integrity`) -/

/-- Structured payload values (strings, integers, nested pairs). -/
inductive SValue where
  | str (s : String)
  | num (n : Int)
  | node (l r : SValue)
  | leaf
deriving DecidableEq

/-- A deterministic structural hash of a payload value. -/
def sValueHash : SValue → Int
  | .str s => s.data.foldl (fun h c => h * 31 + Int.ofNat c.toNat) 7
  | .num n => n * 31 + 1
  | .node l r => sValueHash l * 31 + sValueHash r + 3
  | .leaf => 5

/-- Modelled from the spec: `_compute_state_checksum` is called by
`_verify_state_integrity` but its definition is absent from the source;
the spec requires "a deterministic hash of the content", embodied here by
the deterministic structural hash `sValueHash`. -/
def computeStateChecksum (content : SValue) : SValue :=
  .num (sValueHash content)

/-- `_verify_state_integrity(state_data)`: requires the fields `version`,
`timestamp` and `checksum` to be present, then compares the stored checksum
with the checksum recomputed over `state_data["content"]`; a missing
`content` field raises a `KeyError` swallowed by the `except` clause, so it
also yields `False`. -/
def verifyStateIntegrity (stateData : List (String × SValue)) : Bool :=
  if (["version", "timestamp", "checksum"].all fun f =>
      (stateData.lookup f).isSome) then
    match stateData.lookup "content" with
    | none => false
    | some content =>
        match stateData.lookup "checksum" with
        | none => false
        | some stored => computeStateChecksum content == stored
  else false

/-! ### Discovery health checks (`discovery.py`, `_health_check_loop`) -/

/-- `await asyncio.sleep(30)` in `_health_check_loop`. -/
def healthCheckInterval : Nat := 30

/-- Modelled from the spec: the number of missed health checks after which
a node is evicted (3). -/
def evictionThreshold : Nat := 3

/-- A registry entry: agent id, last-seen time (seconds), status. -/
structure DiscoveryNode where
  agent_id : String
  last_seen : Nat
  status : String
deriving DecidableEq

/-- Modelled from the spec: `_check_nodes_health` is awaited by
`_health_check_loop` but its definition is absent from the source. Per the
spec a node seen within the 30 s check window stays `active`, a node that
has missed a check becomes `stale`, and a node unseen for more than
`evictionThreshold` check intervals (90 s) is removed from the registry. -/
def checkNodesHealth (now : Nat) (nodes : List DiscoveryNode) :
    List DiscoveryNode :=
  (nodes.filter fun nd =>
      now - nd.last_seen ≤ healthCheckInterval * evictionThreshold).map
    fun nd =>
      { nd with status :=
          if now - nd.last_seen ≤ healthCheckInterval then "active"
          else "stale" }

/-! ### Network metrics (`metrics.py`) -/

/-- The counters and samples of `NetworkMetrics`. Latency values are
embedded as rationals. -/
structure NetworkMetrics where
  latency_samples : List ℚ
  sent_messages : Nat
  delivered_messages : Nat
  failed_messages : Nat
  bytes_sent : Nat
  bytes_received : Nat
deriving DecidableEq

/-- `statistics.mean`. -/
def listMean (xs : List ℚ) : ℚ :=
  xs.sum / xs.length

/-- `record_message_failed`. -/
def recordMessageFailed (m : NetworkMetrics) : NetworkMetrics :=
  { m with failed_messages := m.failed_messages + 1 }

/-- `get_delivery_rate`: 1.0 before any message has been sent, else the
ratio of delivered to sent messages. -/
def getDeliveryRate (m : NetworkMetrics) : ℚ :=
  if m.sent_messages = 0 then 1
  else (m.delivered_messages : ℚ) / (m.sent_messages : ℚ)

/-- `get_average_latency`: `None` with no samples, else their mean. -/
def getAverageLatency (m : NetworkMetrics) : Option ℚ :=
  if m.latency_samples = [] then none
  else some (listMean m.latency_samples)

/-- `_calculate_health_score(latency, delivery_rate)`: the mean of the
delivery rate and, when latency data exists, the latency score
`max(0, 1 - latency / 1000)`. -/
def calculateHealthScore (latency : Option ℚ) (deliveryRate : ℚ) : ℚ :=
  let scores : List ℚ := [deliveryRate]
  let scores := match latency with
    | some l => scores ++ [max 0 (1 - l / 1000)]
    | none => scores
  listMean scores

/-! ### Transport retries (`core.py`, `_send_to_node`) -/

/-- `max_retries = 3`. -/
def maxRetries : Nat := 3

/-- The body of `_send_to_node`'s `for attempt in range(max_retries)`
loop. `succeeds i` says whether the i-th connection attempt completes
without raising. Returns the index of the successful attempt (`none` =
`NetworkError` raised at the last attempt) and the backoff delays slept
between attempts, each `1 * (attempt + 1)` seconds. -/
def sendLoop (succeeds : Nat → Bool) : List Nat → Option Nat × List Nat
  | [] => (none, [])
  | attempt :: rest =>
      if succeeds attempt then (some attempt, [])
      else if attempt = maxRetries - 1 then (none, [])
      else
        let r := sendLoop succeeds rest
        (r.1, 1 * (attempt + 1) :: r.2)

/-- `_send_to_node`: the loop runs over attempts `range(max_retries)`. -/
def sendToNode (succeeds : Nat → Bool) : Option Nat × List Nat :=
  sendLoop succeeds (List.range maxRetries)

/-- Modelled from the spec: the failed-delivery metric is recorded when
`_send_to_node` raises `NetworkError`; the recording caller
(`send_message`) is absent from the source. -/
def sendToNodeRecordingMetrics (m : NetworkMetrics) (succeeds : Nat → Bool) :
    NetworkMetrics :=
  match (sendToNode succeeds).1 with
  | none => recordMessageFailed m
  | some _ => m

/-! ### Security tokens (`security.py`) -/

/-- The base64 alphabet character for a 6-bit group. -/
def encodeB64Char (i : Nat) : Char :=
  if i < 26 then Char.ofNat (65 + i)
  else if i < 52 then Char.ofNat (97 + (i - 26))
  else if i < 62 then Char.ofNat (48 + (i - 52))
  else if i = 62 then Char.ofNat 43
  else Char.ofNat 47

/-- The 6-bit group of a base64 alphabet character, `none` outside the
alphabet. -/
def decodeB64Char (c : Char) : Option Nat :=
  if 65 ≤ c.toNat ∧ c.toNat ≤ 90 then some (c.toNat - 65)
  else if 97 ≤ c.toNat ∧ c.toNat ≤ 122 then some (c.toNat - 97 + 26)
  else if 48 ≤ c.toNat ∧ c.toNat ≤ 57 then some (c.toNat - 48 + 52)
  else if c.toNat = 43 then some 62
  else if c.toNat = 47 then some 63
  else none

/-- `base64.b64encode` over a byte list (bytes are naturals < 256),
with `=` padding. -/
def b64encode : List Nat → List Char
  | [] => []
  | [b0] =>
      [encodeB64Char (b0 / 4), encodeB64Char (b0 % 4 * 16), '=', '=']
  | [b0, b1] =>
      [encodeB64Char (b0 / 4), encodeB64Char (b0 % 4 * 16 + b1 / 16),
       encodeB64Char (b1 % 16 * 4), '=']
  | b0 :: b1 :: b2 :: rest =>
      encodeB64Char (b0 / 4) :: encodeB64Char (b0 % 4 * 16 + b1 / 16) ::
      encodeB64Char (b1 % 16 * 4 + b2 / 64) :: encodeB64Char (b2 % 64) ::
      b64encode rest

/-- `base64.b64decode` over a character list: `none` models the decoder
raising on malformed input (which `verify_agent_token` catches). -/
def b64decode : List Char → Option (List Nat)
  | [] => some []
  | c0 :: c1 :: c2 :: c3 :: rest => do
      let d0 ← decodeB64Char c0
      let d1 ← decodeB64Char c1
      if c2 = '=' then
        if c3 = '=' ∧ rest = [] then some [d0 * 4 + d1 / 16] else none
      else do
        let d2 ← decodeB64Char c2
        if c3 = '=' then
          if rest = [] then some [d0 * 4 + d1 / 16, d1 % 16 * 16 + d2 / 4]
          else none
        else do
          let d3 ← decodeB64Char c3
          let tail ← b64decode rest
          some ((d0 * 4 + d1 / 16) :: (d1 % 16 * 16 + d2 / 4) ::
                (d2 % 4 * 64 + d3) :: tail)
  | _ => none

/-- `create_agent_token(agent_id)`: stores the fresh 32 random bytes
(passed here explicitly as `token`, standing for `os.urandom(32)`) under
the agent id — overwriting any previous token — and returns the updated
store together with the base64 text handed back to the caller. -/
def createAgentToken (keys : List (String × List Nat)) (agentId : String)
    (token : List Nat) : List (String × List Nat) × List Char :=
  ((agentId, token) :: keys.filter fun p => p.1 ≠ agentId, b64encode token)

/-- `verify_agent_token(agent_id, token)`: false when no token is stored
for the id (or the stored bytes are falsy, i.e. empty), false when the
presented text fails to decode (the `except` clause), else byte equality
between stored and decoded token. -/
def verifyAgentToken (keys : List (String × List Nat)) (agentId : String)
    (token : List Char) : Bool :=
  match keys.lookup agentId with
  | none => false
  | some stored =>
      if stored = [] then false
      else
        match b64decode token with
        | none => false
        | some provided => stored == provided

/-! Characterisation of the comparison loop. -/

/-- Loop-free description of the comparison: collect "some counter of v1
exceeds v2" and the converse over the node list, then decide. -/
def vclockCompareSpec (v1 v2 : List (String × Int)) (ns : List String)
    (g1 g2 : Bool) : Int :=
  let a := g1 || ns.any fun n => decide (vclockGet v2 n < vclockGet v1 n)
  let b := g2 || ns.any fun n => decide (vclockGet v1 n < vclockGet v2 n)
  if a && b then 0 else if a then 1 else if b then -1 else 0

lemma vclockCompareGo_eq_spec (v1 v2 : List (String × Int)) :
    ∀ (ns : List String) (g1 g2 : Bool), ¬(g1 = true ∧ g2 = true) →
    vclockCompareGo v1 v2 ns g1 g2 = vclockCompareSpec v1 v2 ns g1 g2 := by
  intro ns
  induction ns with
  | nil =>
      intro g1 g2 hg
      cases g1 <;> cases g2 <;> simp_all [vclockCompareGo, vclockCompareSpec]
  | cons n rest ih =>
      intro g1 g2 hg
      simp only [vclockCompareGo]
      set d1 := decide (vclockGet v1 n > vclockGet v2 n) with hd1
      set d2 := decide (vclockGet v2 n > vclockGet v1 n) with hd2
      have hspec : vclockCompareSpec v1 v2 (n :: rest) g1 g2 =
          vclockCompareSpec v1 v2 rest (g1 || d1) (g2 || d2) := by
        simp only [vclockCompareSpec, List.any_cons, gt_iff_lt, ← hd1, ← hd2,
          Bool.or_assoc]
      rw [hspec]
      by_cases hb : ((g1 || d1) && (g2 || d2)) = true
      · rw [if_pos hb]
        have h1 : (g1 || d1) = true := by
          cases hc : (g1 || d1) <;> rw [hc] at hb <;> simp_all
        have h2 : (g2 || d2) = true := by
          cases hc : (g2 || d2) <;> rw [hc] at hb <;> simp_all
        simp [vclockCompareSpec, h1, h2]
      · rw [if_neg hb]
        exact ih (g1 || d1) (g2 || d2) (fun hcon => hb (by
          simp [hcon.1, hcon.2]))

/-- Counters of nodes mentioned in neither clock are 0 on both sides. -/
lemma vclockGet_eq_zero_of_not_mem (v1 v2 : List (String × Int)) (n : String)
    (h : n ∉ vclockNodes v1 v2) : vclockGet v1 n = 0 ∧ vclockGet v2 n = 0 := by
  simp only [vclockNodes, List.mem_dedup, List.mem_append] at h
  push_neg at h
  have key : ∀ v : List (String × Int), n ∉ v.map Prod.fst →
      vclockGet v n = 0 := by
    intro v
    induction v with
    | nil => intro _; rfl
    | cons p tl ih2 =>
        intro hm
        simp only [List.map_cons, List.mem_cons] at hm
        push_neg at hm
        simp only [vclockGet, List.lookup, beq_eq_false_iff_ne.mpr hm.1]
        simpa [vclockGet] using ih2 hm.2
  exact ⟨key v1 h.1, key v2 h.2⟩

/-- The ∃-over-listed-nodes form and the ∃-over-all-identities form agree,
for any node list covering the support of both clocks. -/
lemma exists_nodes_iff (w1 w2 : List (String × Int)) (ns : List String)
    (hcov : ∀ n : String, n ∉ ns → vclockGet w1 n = 0 ∧ vclockGet w2 n = 0) :
    (ns.any fun n => decide (vclockGet w2 n < vclockGet w1 n)) = true ↔
    ∃ n : String, vclockGet w2 n < vclockGet w1 n := by
  rw [List.any_eq_true]
  constructor
  · rintro ⟨n, _, hn⟩
    exact ⟨n, of_decide_eq_true hn⟩
  · rintro ⟨n, hn⟩
    by_cases hm : n ∈ ns
    · exact ⟨n, hm, decide_eq_true hn⟩
    · rcases hcov n hm with ⟨h1, h2⟩
      rw [h1, h2] at hn
      exact absurd hn (lt_irrefl 0)

/-- The negation of the ∃ form is the ∀-counters-dominate form. -/
lemma not_exists_nodes_iff (w1 w2 : List (String × Int)) (ns : List String)
    (hcov : ∀ n : String, n ∉ ns → vclockGet w1 n = 0 ∧ vclockGet w2 n = 0) :
    (ns.any fun n => decide (vclockGet w2 n < vclockGet w1 n)) = false ↔
    ∀ n : String, vclockGet w1 n ≤ vclockGet w2 n := by
  constructor
  · intro h n
    by_contra hlt
    push_neg at hlt
    have := (exists_nodes_iff w1 w2 ns hcov).mpr ⟨n, hlt⟩
    rw [h] at this
    exact Bool.false_ne_true this
  · intro h
    by_contra hne
    have hany : (ns.any fun n =>
        decide (vclockGet w2 n < vclockGet w1 n)) = true := by
      cases hc : (ns.any fun n =>
          decide (vclockGet w2 n < vclockGet w1 n))
      · exact absurd hc hne
      · rfl
    rcases (exists_nodes_iff w1 w2 ns hcov).mp hany with ⟨n, hn⟩
    exact absurd hn (not_lt.mpr (h n))

/-- `vclockCompare` unfolded to its loop-free form. -/
lemma vclockCompare_eq_spec (v1 v2 : List (String × Int)) :
    vclockCompare v1 v2 =
      (if ((vclockNodes v1 v2).any fun n =>
            decide (vclockGet v2 n < vclockGet v1 n)) &&
          ((vclockNodes v1 v2).any fun n =>
            decide (vclockGet v1 n < vclockGet v2 n)) then 0
       else if (vclockNodes v1 v2).any fun n =>
            decide (vclockGet v2 n < vclockGet v1 n) then 1
       else if (vclockNodes v1 v2).any fun n =>
            decide (vclockGet v1 n < vclockGet v2 n) then -1
       else 0) := by
  rw [vclockCompare, vclockCompareGo_eq_spec v1 v2 _ false false (by simp)]
  simp only [vclockCompareSpec, Bool.false_or]

/-- C1. `_vclock_compare` returns 1 exactly when every counter of the
first clock dominates the corresponding counter of the second and at
least one strictly exceeds it (missing keys read as 0); -1 in the
symmetric case; and 0 otherwise — for equal or concurrent clocks. -/
theorem vclock_compare_characterisation (v1 v2 : List (String × Int)) :
    (vclockCompare v1 v2 = 1 ↔
      (∀ n : String, vclockGet v2 n ≤ vclockGet v1 n) ∧
      ∃ n : String, vclockGet v2 n < vclockGet v1 n) ∧
    (vclockCompare v1 v2 = -1 ↔
      (∀ n : String, vclockGet v1 n ≤ vclockGet v2 n) ∧
      ∃ n : String, vclockGet v1 n < vclockGet v2 n) ∧
    (vclockCompare v1 v2 = 0 ↔
      ¬((∀ n : String, vclockGet v2 n ≤ vclockGet v1 n) ∧
        ∃ n : String, vclockGet v2 n < vclockGet v1 n) ∧
      ¬((∀ n : String, vclockGet v1 n ≤ vclockGet v2 n) ∧
        ∃ n : String, vclockGet v1 n < vclockGet v2 n)) := by
  have hcov : ∀ n : String, n ∉ vclockNodes v1 v2 →
      vclockGet v1 n = 0 ∧ vclockGet v2 n = 0 :=
    fun n hn => vclockGet_eq_zero_of_not_mem v1 v2 n hn
  have hcov2 : ∀ n : String, n ∉ vclockNodes v1 v2 →
      vclockGet v2 n = 0 ∧ vclockGet v1 n = 0 :=
    fun n hn => ⟨(hcov n hn).2, (hcov n hn).1⟩
  have ha := exists_nodes_iff v1 v2 (vclockNodes v1 v2) hcov
  have hb := exists_nodes_iff v2 v1 (vclockNodes v1 v2) hcov2
  have ha' := not_exists_nodes_iff v1 v2 (vclockNodes v1 v2) hcov
  have hb' := not_exists_nodes_iff v2 v1 (vclockNodes v1 v2) hcov2
  rw [vclockCompare_eq_spec]
  cases hA : ((vclockNodes v1 v2).any fun n =>
      decide (vclockGet v2 n < vclockGet v1 n)) <;>
  cases hB : ((vclockNodes v1 v2).any fun n =>
      decide (vclockGet v1 n < vclockGet v2 n))
  · -- neither side ever strictly greater: the clocks are equal
    refine ⟨iff_of_false (by norm_num) ?_, iff_of_false (by norm_num) ?_,
      iff_of_true rfl ⟨?_, ?_⟩⟩
    · rintro ⟨-, n, hn⟩
      exact absurd hn (not_lt.mpr (ha'.mp hA n))
    · rintro ⟨-, n, hn⟩
      exact absurd hn (not_lt.mpr (hb'.mp hB n))
    · rintro ⟨-, n, hn⟩
      exact absurd hn (not_lt.mpr (ha'.mp hA n))
    · rintro ⟨-, n, hn⟩
      exact absurd hn (not_lt.mpr (hb'.mp hB n))
  · -- only the second clock has a strictly greater counter
    refine ⟨iff_of_false (by norm_num) ?_, iff_of_true rfl ⟨ha'.mp hA, hb.mp hB⟩,
      iff_of_false (by norm_num) ?_⟩
    · rintro ⟨-, n, hn⟩
      exact absurd hn (not_lt.mpr (ha'.mp hA n))
    · rintro ⟨-, hc⟩
      exact hc ⟨ha'.mp hA, hb.mp hB⟩
  · -- only the first clock has a strictly greater counter
    refine ⟨iff_of_true rfl ⟨hb'.mp hB, ha.mp hA⟩, iff_of_false (by norm_num) ?_,
      iff_of_false (by norm_num) ?_⟩
    · rintro ⟨-, n, hn⟩
      exact absurd hn (not_lt.mpr (hb'.mp hB n))
    · rintro ⟨hc, -⟩
      exact hc ⟨hb'.mp hB, ha.mp hA⟩
  · -- both sides strictly greater somewhere: concurrent
    refine ⟨iff_of_false (by norm_num) ?_, iff_of_false (by norm_num) ?_,
      iff_of_true rfl ⟨?_, ?_⟩⟩
    · rintro ⟨hall, -⟩
      rcases hb.mp hB with ⟨n, hn⟩
      exact absurd hn (not_lt.mpr (hall n))
    · rintro ⟨hall, -⟩
      rcases ha.mp hA with ⟨n, hn⟩
      exact absurd hn (not_lt.mpr (hall n))
    · rintro ⟨hall, -⟩
      rcases hb.mp hB with ⟨n, hn⟩
      exact absurd hn (not_lt.mpr (hall n))
    · rintro ⟨hall, -⟩
      rcases ha.mp hA with ⟨n, hn⟩
      exact absurd hn (not_lt.mpr (hall n))

/-! ### Lemmas on snapshot lookup and conflict resolution -/

lemma lookup_eq_none_of_not_mem_keys {β : Type} (l : List (String × β))
    (k : String) (h : k ∉ l.map Prod.fst) : l.lookup k = none := by
  induction l with
  | nil => rfl
  | cons p tl ih =>
      simp only [List.map_cons, List.mem_cons] at h
      push_neg at h
      simp only [List.lookup, beq_eq_false_iff_ne.mpr h.1]
      exact ih h.2

lemma lookup_filterMap_keyed {β : Type} (f : String → Option β) :
    ∀ (ks : List String), ks.Nodup → ∀ k : String,
    (ks.filterMap fun key => (f key).map fun e => (key, e)).lookup k =
      if k ∈ ks then f k else none := by
  intro ks
  induction ks with
  | nil => intro _ k; simp
  | cons a tl ih =>
      intro hnd k
      rcases List.nodup_cons.mp hnd with ⟨hna, hnd'⟩
      by_cases hk : k = a
      · subst hk
        cases hfa : f k with
        | none =>
            simp [List.filterMap_cons, hfa, ih hnd' k, hna]
        | some e =>
            simp only [List.filterMap_cons, hfa, Option.map_some']
            simp [List.lookup, hfa]
      · cases hfa : f a with
        | none =>
            simp only [List.filterMap_cons, hfa, Option.map_none']
            rw [ih hnd' k]
            by_cases hm : k ∈ tl
            · rw [if_pos hm, if_pos (List.mem_cons_of_mem a hm)]
            · rw [if_neg hm, if_neg (by
                intro hc
                rcases List.mem_cons.mp hc with rfl | hc
                · exact hk rfl
                · exact hm hc)]
        | some e =>
            simp only [List.filterMap_cons, hfa, Option.map_some']
            simp only [List.lookup, beq_eq_false_iff_ne.mpr hk]
            rw [ih hnd' k]
            by_cases hm : k ∈ tl
            · rw [if_pos hm, if_pos (List.mem_cons_of_mem a hm)]
            · rw [if_neg hm, if_neg (by
                intro hc
                rcases List.mem_cons.mp hc with rfl | hc
                · exact hk rfl
                · exact hm hc)]

/-- The resolved snapshot, read as a map: pointwise `resolveEntry`. -/
lemma lookupState_resolve {α : Type}
    (localState remoteState : List (String × StateEntry α)) (k : String) :
    lookupState (resolveStateConflict localState remoteState) k =
      resolveEntry (lookupState localState k) (lookupState remoteState k) := by
  unfold resolveStateConflict lookupState
  rw [lookup_filterMap_keyed _ _ (List.nodup_dedup _) k]
  by_cases hm : k ∈ (stateKeys localState ++ stateKeys remoteState).dedup
  · rw [if_pos hm]
  · rw [if_neg hm]
    simp only [List.mem_dedup, List.mem_append] at hm
    push_neg at hm
    rw [show localState.lookup k = none from
        lookup_eq_none_of_not_mem_keys _ _ hm.1,
      show remoteState.lookup k = none from
        lookup_eq_none_of_not_mem_keys _ _ hm.2]
    rfl

/-- Comparing a vector clock with itself yields 0 (equal clocks). -/
lemma vclockCompare_self (v : List (String × Int)) : vclockCompare v v = 0 := by
  rw [vclockCompare_eq_spec]
  have h : ((vclockNodes v v).any fun n =>
      decide (vclockGet v n < vclockGet v n)) = false := by
    rw [List.any_eq_false]
    intro n _
    simp
  rw [h]
  simp

/-- C3. A key present in only one snapshot is taken from that snapshot
unchanged; a key present in both with strictly ordered vector clocks is
taken from the side whose clock is strictly greater. -/
theorem resolve_state_conflict_cases {α : Type}
    (localState remoteState : List (String × StateEntry α)) (k : String) :
    (∀ e, lookupState localState k = some e →
      lookupState remoteState k = none →
      lookupState (resolveStateConflict localState remoteState) k = some e) ∧
    (∀ e, lookupState remoteState k = some e →
      lookupState localState k = none →
      lookupState (resolveStateConflict localState remoteState) k = some e) ∧
    (∀ le re, lookupState localState k = some le →
      lookupState remoteState k = some re →
      vclockCompare le.vclock re.vclock = 1 →
      lookupState (resolveStateConflict localState remoteState) k = some le) ∧
    (∀ le re, lookupState localState k = some le →
      lookupState remoteState k = some re →
      vclockCompare le.vclock re.vclock = -1 →
      lookupState (resolveStateConflict localState remoteState) k = some re) := by
  refine ⟨?_, ?_, ?_, ?_⟩
  · intro e hl hr
    rw [lookupState_resolve, hl, hr]
    rfl
  · intro e hr hl
    rw [lookupState_resolve, hl, hr]
    rfl
  · intro le re hl hr hc
    rw [lookupState_resolve, hl, hr]
    simp [resolveEntry, hc]
  · intro le re hl hr hc
    rw [lookupState_resolve, hl, hr]
    simp [resolveEntry, hc]

/-- Witness for C3 at concrete snapshots: a key only on the local side,
and a key on both sides with the local clock strictly greater. -/
theorem resolve_state_conflict_cases_witness :
    lookupState (resolveStateConflict
        [("x", (⟨5, [("A", 1)]⟩ : StateEntry Int))] []) "x" =
      some ⟨5, [("A", 1)]⟩ ∧
    lookupState (resolveStateConflict
        [("y", (⟨1, [("A", 2)]⟩ : StateEntry Int))]
        [("y", (⟨2, [("A", 1)]⟩ : StateEntry Int))]) "y" =
      some ⟨1, [("A", 2)]⟩ :=
  ⟨(resolve_state_conflict_cases
      [("x", (⟨5, [("A", 1)]⟩ : StateEntry Int))] [] "x").1 _ rfl rfl,
   (resolve_state_conflict_cases
      [("y", (⟨1, [("A", 2)]⟩ : StateEntry Int))]
      [("y", (⟨2, [("A", 1)]⟩ : StateEntry Int))] "y").2.2.1 _ _ rfl rfl
      (by decide)⟩

/-- C4. When both sides hold the key and the vector clocks compare as 0
(equal or concurrent), the remote entry is always chosen — a deterministic
remote-wins tie-break; the entries' values (which would carry any
wall-clock timestamp) are arbitrary and never consulted. -/
theorem resolve_tie_break_remote_wins {α : Type}
    (localState remoteState : List (String × StateEntry α)) (k : String)
    (le re : StateEntry α)
    (hl : lookupState localState k = some le)
    (hr : lookupState remoteState k = some re)
    (hc : vclockCompare le.vclock re.vclock = 0) :
    lookupState (resolveStateConflict localState remoteState) k = some re := by
  rw [lookupState_resolve, hl, hr]
  simp [resolveEntry, hc]

/-- Witness for C4: concurrent clocks at a concrete key. -/
theorem resolve_tie_break_remote_wins_witness :
    lookupState (resolveStateConflict
        [("x", (⟨1, [("A", 2), ("B", 1)]⟩ : StateEntry Int))]
        [("x", (⟨2, [("A", 1), ("B", 2)]⟩ : StateEntry Int))]) "x" =
      some ⟨2, [("A", 1), ("B", 2)]⟩ :=
  resolve_tie_break_remote_wins
    [("x", (⟨1, [("A", 2), ("B", 1)]⟩ : StateEntry Int))]
    [("x", (⟨2, [("A", 1), ("B", 2)]⟩ : StateEntry Int))] "x" _ _ rfl rfl
    (by decide)

/-- C2 counterexample: with concurrent clocks the remote-wins tie-break
makes re-reconciling the result with the *first* input flip the key back,
so `resolve(resolve(L,R),L) ≠ resolve(L,R)` at this input. -/
theorem resolve_not_idempotent_with_first_input :
    lookupState
      (resolveStateConflict
        (resolveStateConflict
          [("x", (⟨1, [("A", 1)]⟩ : StateEntry Int))]
          [("x", (⟨2, [("B", 1)]⟩ : StateEntry Int))])
        [("x", (⟨1, [("A", 1)]⟩ : StateEntry Int))]) "x" ≠
    lookupState
      (resolveStateConflict
        [("x", (⟨1, [("A", 1)]⟩ : StateEntry Int))]
        [("x", (⟨2, [("B", 1)]⟩ : StateEntry Int))]) "x" := by
  decide

/-- C2 (amended). Reconciliation is idempotent with respect to the second
(remote) input: reconciling `resolve(L,R)` with `R` again yields
`resolve(L,R)` at every key; idempotence with the first input fails for
concurrent clocks (see the counterexample). -/
theorem resolve_idempotent_remote {α : Type}
    (localState remoteState : List (String × StateEntry α)) (k : String) :
    lookupState (resolveStateConflict
        (resolveStateConflict localState remoteState) remoteState) k =
    lookupState (resolveStateConflict localState remoteState) k := by
  rw [lookupState_resolve, lookupState_resolve]
  cases hl : lookupState localState k with
  | none =>
      cases hr : lookupState remoteState k with
      | none => rfl
      | some re => simp [resolveEntry, vclockCompare_self]
  | some le =>
      cases hr : lookupState remoteState k with
      | none => rfl
      | some re =>
          by_cases hc : vclockCompare le.vclock re.vclock > 0
          · simp [resolveEntry, hc]
          · simp [resolveEntry, hc, vclockCompare_self]

/-! ### Discovery eviction, transport retries, integrity, metrics -/

/-- C5. After a health-check cycle with the 30 s interval and the 3-missed-
checks threshold, a node last seen more than 91 s ago is absent from the
registry. -/
theorem health_check_evicts (now : Nat) (nodes : List DiscoveryNode)
    (nd : DiscoveryNode) (h : 91 < now - nd.last_seen) :
    nd ∉ checkNodesHealth now nodes := by
  intro hmem
  unfold checkNodesHealth at hmem
  rcases List.mem_map.mp hmem with ⟨orig, horig, heq⟩
  have hage := List.mem_filter.mp horig
  have hle : now - orig.last_seen ≤ healthCheckInterval * evictionThreshold :=
    of_decide_eq_true hage.2
  have hseen : nd.last_seen = orig.last_seen := by
    rw [← heq]
  rw [hseen] at h
  simp only [healthCheckInterval, evictionThreshold] at hle
  omega

/-- Witness for C5: a node last seen at time 0 is gone at time 92. -/
theorem health_check_evicts_witness :
    (⟨"n1", 0, "active"⟩ : DiscoveryNode) ∉
      checkNodesHealth 92 [⟨"n1", 0, "active"⟩] :=
  health_check_evicts 92 [⟨"n1", 0, "active"⟩] ⟨"n1", 0, "active"⟩
    (by decide)

/-- C6. `_send_to_node` makes at most 3 attempts (the outcome only depends
on the first 3 attempts); a successful attempt returns at once with linear
backoff delays `1 * n` before it; after the 3rd consecutive failure it
raises `NetworkError` (the `none` outcome) having slept `1 * 1` and
`1 * 2` seconds, and the failed-delivery metric is recorded exactly in
that case. -/
theorem send_to_node_retries (m : NetworkMetrics) (succeeds : Nat → Bool) :
    (succeeds 0 = true → sendToNode succeeds = (some 0, []) ∧
      sendToNodeRecordingMetrics m succeeds = m) ∧
    (succeeds 0 = false → succeeds 1 = true →
      sendToNode succeeds = (some 1, [1 * 1]) ∧
      sendToNodeRecordingMetrics m succeeds = m) ∧
    (succeeds 0 = false → succeeds 1 = false → succeeds 2 = true →
      sendToNode succeeds = (some 2, [1 * 1, 1 * 2]) ∧
      sendToNodeRecordingMetrics m succeeds = m) ∧
    (succeeds 0 = false → succeeds 1 = false → succeeds 2 = false →
      sendToNode succeeds = (none, [1 * 1, 1 * 2]) ∧
      (sendToNodeRecordingMetrics m succeeds).failed_messages =
        m.failed_messages + 1) ∧
    (∀ other : Nat → Bool, (∀ i, i < 3 → succeeds i = other i) →
      sendToNode succeeds = sendToNode other) := by
  have hrange : List.range maxRetries = [0, 1, 2] := rfl
  refine ⟨?_, ?_, ?_, ?_, ?_⟩
  · intro h0
    constructor
    · simp [sendToNode, hrange, sendLoop, h0]
    · simp [sendToNodeRecordingMetrics, sendToNode, hrange, sendLoop, h0]
  · intro h0 h1
    constructor
    · simp [sendToNode, hrange, sendLoop, h0, h1, maxRetries]
    · simp [sendToNodeRecordingMetrics, sendToNode, hrange, sendLoop, h0, h1,
        maxRetries]
  · intro h0 h1 h2
    constructor
    · simp [sendToNode, hrange, sendLoop, h0, h1, h2, maxRetries]
    · simp [sendToNodeRecordingMetrics, sendToNode, hrange, sendLoop, h0, h1,
        h2, maxRetries]
  · intro h0 h1 h2
    constructor
    · simp [sendToNode, hrange, sendLoop, h0, h1, h2, maxRetries]
    · simp [sendToNodeRecordingMetrics, sendToNode, hrange, sendLoop, h0, h1,
        h2, maxRetries, recordMessageFailed]
  · intro other hagree
    have e0 := hagree 0 (by norm_num)
    have e1 := hagree 1 (by norm_num)
    have e2 := hagree 2 (by norm_num)
    simp [sendToNode, hrange, sendLoop, e0, e1, e2]

/-- Witness for C6: with every attempt failing, delivery fails after
backoffs of 1 s and 2 s and the failure counter of a fresh metrics record
moves from 0 to 1. -/
theorem send_to_node_retries_witness :
    sendToNode (fun _ => false) = (none, [1 * 1, 1 * 2]) ∧
    (sendToNodeRecordingMetrics ⟨[], 0, 0, 0, 0, 0⟩
      (fun _ => false)).failed_messages = 0 + 1 :=
  (send_to_node_retries ⟨[], 0, 0, 0, 0, 0⟩ (fun _ => false)).2.2.2.1
    rfl rfl rfl

/-- C8. `_verify_state_integrity` accepts exactly the payloads carrying
`version`, `timestamp` and `checksum` whose stored checksum equals the
checksum recomputed over the `content` field; it is a total function, so
it never raises. -/
theorem verify_state_integrity_iff (p : List (String × SValue)) :
    verifyStateIntegrity p = true ↔
      (p.lookup "version").isSome ∧ (p.lookup "timestamp").isSome ∧
      ∃ content checksum : SValue, p.lookup "content" = some content ∧
        p.lookup "checksum" = some checksum ∧
        computeStateChecksum content = checksum := by
  cases hv : p.lookup "version" <;> cases ht : p.lookup "timestamp" <;>
  cases hc : p.lookup "checksum" <;> cases hco : p.lookup "content" <;>
  simp [verifyStateIntegrity, hv, ht, hc, hco, beq_iff_eq]

/-- C9. The delivery rate is 1.0 before any message is sent, and
`delivered / sent` afterwards; at sent = 10, delivered = 7 it is 0.7. -/
theorem delivery_rate_spec :
    (∀ m : NetworkMetrics, m.sent_messages = 0 → getDeliveryRate m = 1) ∧
    (∀ m : NetworkMetrics, m.sent_messages ≠ 0 →
      getDeliveryRate m =
        (m.delivered_messages : ℚ) / (m.sent_messages : ℚ)) ∧
    (∀ m : NetworkMetrics, m.sent_messages = 10 → m.delivered_messages = 7 →
      getDeliveryRate m = 7 / 10) := by
  refine ⟨?_, ?_, ?_⟩
  · intro m h
    simp [getDeliveryRate, h]
  · intro m h
    simp [getDeliveryRate, h]
  · intro m hs hd
    simp [getDeliveryRate, hs, hd]

/-- Witness for C9 at a concrete metrics record. -/
theorem delivery_rate_spec_witness :
    getDeliveryRate ⟨[], 10, 7, 0, 0, 0⟩ = 7 / 10 :=
  delivery_rate_spec.2.2 ⟨[], 10, 7, 0, 0, 0⟩ rfl rfl

/-- C10. With latency data the health score is the unweighted mean of the
delivery rate and `max(0, 1 - latency/1000)`; without it, the delivery
rate alone; for a delivery rate in [0, 1] and a nonnegative latency the
score lies in [0, 1]. -/
theorem health_score_spec :
    (∀ d l : ℚ, calculateHealthScore (some l) d =
      (d + max 0 (1 - l / 1000)) / 2) ∧
    (∀ d : ℚ, calculateHealthScore none d = d) ∧
    (∀ d l : ℚ, 0 ≤ d → d ≤ 1 → 0 ≤ l →
      0 ≤ calculateHealthScore (some l) d ∧
      calculateHealthScore (some l) d ≤ 1) ∧
    (∀ d : ℚ, 0 ≤ d → d ≤ 1 →
      0 ≤ calculateHealthScore none d ∧ calculateHealthScore none d ≤ 1) := by
  have hsome : ∀ d l : ℚ, calculateHealthScore (some l) d =
      (d + max 0 (1 - l / 1000)) / 2 := by
    intro d l
    simp [calculateHealthScore, listMean]
  have hnone : ∀ d : ℚ, calculateHealthScore none d = d := by
    intro d
    simp [calculateHealthScore, listMean]
  refine ⟨hsome, hnone, ?_, ?_⟩
  · intro d l hd0 hd1 hl
    have ht0 : 0 ≤ max 0 (1 - l / 1000) := le_max_left _ _
    have ht1 : max 0 (1 - l / 1000) ≤ 1 := by
      apply max_le
      · norm_num
      · have : 0 ≤ l / 1000 := by positivity
        linarith
    rw [hsome]
    constructor
    · linarith
    · linarith
  · intro d hd0 hd1
    rw [hnone]
    exact ⟨hd0, hd1⟩

/-- Witness for C10 at delivery rate 0.7 and latency 500 ms. -/
theorem health_score_spec_witness :
    0 ≤ calculateHealthScore (some 500) (7 / 10) ∧
    calculateHealthScore (some 500) (7 / 10) ≤ 1 :=
  health_score_spec.2.2.1 (7 / 10) 500 (by norm_num) (by norm_num)
    (by norm_num)

/-! ### Security-token lemmas: base64 round trip and verification -/

lemma decodeB64Char_encodeB64Char_fin :
    ∀ i : Fin 64, decodeB64Char (encodeB64Char i.val) = some i.val := by
  decide

lemma decodeB64Char_encodeB64Char {i : Nat} (h : i < 64) :
    decodeB64Char (encodeB64Char i) = some i :=
  decodeB64Char_encodeB64Char_fin ⟨i, h⟩

lemma encodeB64Char_ne_pad {i : Nat} (h : i < 64) : encodeB64Char i ≠ '=' := by
  intro hc
  have hd := decodeB64Char_encodeB64Char h
  have hnone : decodeB64Char '=' = none := by decide
  rw [hc, hnone] at hd
  exact Option.noConfusion hd

/-- Decoding inverts encoding on byte lists. -/
lemma b64decode_b64encode :
    ∀ bs : List Nat, (∀ b ∈ bs, b < 256) →
      b64decode (b64encode bs) = some bs
  | [], _ => rfl
  | [b0], h => by
      have hb0 : b0 < 256 := h b0 (by simp)
      have e0 := decodeB64Char_encodeB64Char (show b0 / 4 < 64 by omega)
      have e1 := decodeB64Char_encodeB64Char (show b0 % 4 * 16 < 64 by omega)
      simp only [b64encode, b64decode, e0, e1, Option.bind_eq_bind,
        Option.some_bind]
      simp only [reduceIte, and_self, Option.some.injEq, List.cons.injEq,
        and_true]
      omega
  | [b0, b1], h => by
      have hb0 : b0 < 256 := h b0 (by simp)
      have hb1 : b1 < 256 := h b1 (by simp)
      have e0 := decodeB64Char_encodeB64Char (show b0 / 4 < 64 by omega)
      have e1 := decodeB64Char_encodeB64Char
        (show b0 % 4 * 16 + b1 / 16 < 64 by omega)
      have e2 := decodeB64Char_encodeB64Char (show b1 % 16 * 4 < 64 by omega)
      have hne : encodeB64Char (b1 % 16 * 4) ≠ '=' :=
        encodeB64Char_ne_pad (by omega)
      simp only [b64encode, b64decode, e0, e1, e2, Option.bind_eq_bind,
        Option.some_bind, if_neg hne, reduceIte, Option.some.injEq,
        List.cons.injEq, and_true]
      omega
  | b0 :: b1 :: b2 :: rest, h => by
      have hb0 : b0 < 256 := h b0 (by simp)
      have hb1 : b1 < 256 := h b1 (by simp)
      have hb2 : b2 < 256 := h b2 (by simp)
      have hrest : ∀ b ∈ rest, b < 256 := fun b hb => h b (by
        simp only [List.mem_cons]
        tauto)
      have ih := b64decode_b64encode rest hrest
      have e0 := decodeB64Char_encodeB64Char (show b0 / 4 < 64 by omega)
      have e1 := decodeB64Char_encodeB64Char
        (show b0 % 4 * 16 + b1 / 16 < 64 by omega)
      have e2 := decodeB64Char_encodeB64Char
        (show b1 % 16 * 4 + b2 / 64 < 64 by omega)
      have e3 := decodeB64Char_encodeB64Char (show b2 % 64 < 64 by omega)
      have hne2 : encodeB64Char (b1 % 16 * 4 + b2 / 64) ≠ '=' :=
        encodeB64Char_ne_pad (by omega)
      have hne3 : encodeB64Char (b2 % 64) ≠ '=' :=
        encodeB64Char_ne_pad (by omega)
      simp only [b64encode, b64decode, e0, e1, e2, e3, Option.bind_eq_bind,
        Option.some_bind, if_neg hne2, if_neg hne3, ih, Option.some.injEq,
        List.cons.injEq]
      refine ⟨by omega, by omega, by omega, trivial⟩

/-- A successful association-list lookup comes from a member pair. -/
lemma mem_of_lookup_eq_some {β : Type} {l : List (String × β)} {k : String}
    {v : β} (h : l.lookup k = some v) : (k, v) ∈ l := by
  induction l with
  | nil => exact absurd h (by simp [List.lookup])
  | cons p tl ih =>
      rcases p with ⟨a, b⟩
      by_cases hk : k = a
      · subst hk
        simp only [List.lookup, beq_self_eq_true] at h
        rw [← Option.some.inj h]
        exact List.mem_cons_self _ _
      · simp only [List.lookup, beq_eq_false_iff_ne.mpr hk] at h
        exact List.mem_cons_of_mem _ (ih h)

set_option maxRecDepth 4000 in
/-- C7. `verify_agent_token` returns true exactly when the agent id has a
stored (necessarily non-empty) token and the presented text base64-decodes
to exactly the stored bytes; it returns false for an unknown id; it is a
total function, so undecodable (malformed) text yields false rather than
an exception; re-issuing a token invalidates the previously issued one,
and a freshly issued token verifies. -/
theorem verify_agent_token_spec :
    (∀ (keys : List (String × List Nat)) (agentId : String)
      (tok : List Char), (∀ p ∈ keys, p.2 ≠ []) →
      (verifyAgentToken keys agentId tok = true ↔
        ∃ stored : List Nat, keys.lookup agentId = some stored ∧
          b64decode tok = some stored)) ∧
    (∀ (keys : List (String × List Nat)) (agentId : String)
      (tok : List Char), keys.lookup agentId = none →
      verifyAgentToken keys agentId tok = false) ∧
    (∀ (keys : List (String × List Nat)) (agentId : String)
      (t1 t2 : List Nat), (∀ b ∈ t1, b < 256) → t1 ≠ t2 →
      verifyAgentToken
        (createAgentToken (createAgentToken keys agentId t1).1 agentId t2).1
        agentId (createAgentToken keys agentId t1).2 = false) ∧
    (∀ (keys : List (String × List Nat)) (agentId : String) (t : List Nat),
      (∀ b ∈ t, b < 256) → t ≠ [] →
      verifyAgentToken (createAgentToken keys agentId t).1 agentId
        (createAgentToken keys agentId t).2 = true) := by
  refine ⟨?_, ?_, ?_, ?_⟩
  · intro keys agentId tok hinv
    unfold verifyAgentToken
    cases hl : keys.lookup agentId with
    | none => simp
    | some stored =>
        have hne : stored ≠ [] :=
          hinv (agentId, stored) (mem_of_lookup_eq_some hl)
        cases hd : b64decode tok with
        | none => simp [hne, hd]
        | some provided =>
            simp [hne, hd, beq_iff_eq]
            exact eq_comm
  · intro keys agentId tok hl
    unfold verifyAgentToken
    rw [hl]
  · intro keys agentId t1 t2 hb hne
    have hdec := b64decode_b64encode t1 hb
    simp only [createAgentToken, verifyAgentToken, List.lookup,
      beq_self_eq_true]
    by_cases ht2 : t2 = []
    · simp [ht2]
    · rw [if_neg ht2, hdec]
      exact beq_eq_false_iff_ne.mpr (Ne.symm hne)
  · intro keys agentId t hb hne
    have hdec := b64decode_b64encode t hb
    simp only [createAgentToken, verifyAgentToken, List.lookup,
      beq_self_eq_true]
    rw [if_neg hne, hdec]
    exact beq_self_eq_true t

/-- Witness for C7: a freshly issued token for bytes `[0, 255]` verifies,
and after a re-issue the first token is rejected. -/
theorem verify_agent_token_spec_witness :
    verifyAgentToken (createAgentToken [] "a" [0, 255]).1 "a"
      (createAgentToken [] "a" [0, 255]).2 = true ∧
    verifyAgentToken
      (createAgentToken (createAgentToken [] "a" [1]).1 "a" [2]).1 "a"
      (createAgentToken [] "a" [1]).2 = false :=
  ⟨verify_agent_token_spec.2.2.2 [] "a" [0, 255] (by decide) (by decide),
   verify_agent_token_spec.2.2.1 [] "a" [1] [2] (by decide) (by decide)⟩

end SeedNetwork
